import Mathlib

/-
Verification of the GameCube disc-image parsing library (src/lib.rs) against
its natural-language specification.

The Rust source is shallowly embedded: the random-access file is a `Source`
(a length and a byte function); machine integers are `Nat` with an explicit
`% 2 ^ 32` (`w32`) wherever Rust performs `u32` arithmetic that can wrap;
fallible Rust functions returning `Result<_, ImageError>` become
`Except ImageError _` or `Except Fail _`, where `Fail` additionally records
the possibility of a Rust panic (from `unwrap` or `assert`); Rust `String`
values are represented by the list of their UTF-8 bytes, which is exactly
the payload `String::from_utf8` validates and keeps.
-/

/-- A random-access byte source (models the opened image file): a total
length and the byte stored at each offset. Bytes are reduced mod 256 so that
every `Source` is a genuine byte sequence. -/
structure Source where
  len : Nat
  data : Nat → Nat

/-- Byte at offset `i` (always < 256). -/
def Source.byte (s : Source) (i : Nat) : Nat := s.data i % 256

/-- Build a source from an explicit list of bytes. -/
def srcOfList (l : List Nat) : Source := ⟨l.length, fun i => l.getD i 0⟩

/-- Rust `u32` wrap-around: reduction mod 2 ^ 32. -/
def w32 (n : Nat) : Nat := n % 4294967296

/-- Typed errors of the library, from `enum ImageError` in src/lib.rs.
`FileNotFound` carries the requested file name (as its UTF-8 bytes). -/
inductive ImageError where
  | IOError : ImageError
  | InvalidFileType : ImageError
  | InvalidRegion : Nat → ImageError
  | InvalidHeader : String → ImageError
  | InvalidBanner : String → ImageError
  | FileNotFound : List Nat → ImageError
deriving DecidableEq

/-- Outcome channel of an embedded Rust computation: a typed error, or a
panic (Rust `unwrap`/`assert` failure, which terminates the process). -/
inductive Fail where
  | panicked : Fail
  | err : ImageError → Fail
deriving DecidableEq

/-- Lift a panic-free result into the panic-aware error channel. -/
def liftE : Except ImageError α → Except Fail α
  | .ok a => .ok a
  | .error e => .error (.err e)

/-- Constants from src/lib.rs. -/
def DVD_HEADER_SIZE : Nat := 0x0440
def DVD_MAGIC_NUMBER : Nat := 0xC2339F3D
def DVD_IMAGE_SIZE : Nat := 1459978240
def GAME_NAME_SIZE : Nat := 0x03e0
def CONSOLE_ID : Nat := 0x47
def FILE_ENTRY_SIZE : Nat := 0x0C
def BANNER_SZ : Nat := 6496

/-- The bytes of the string literal "opening.bnr" (`BANNER_NAME`). -/
def BANNER_NAME : List Nat := [111, 112, 101, 110, 105, 110, 103, 46, 98, 110, 114]

/-- `enum Region` from src/lib.rs. -/
inductive Region where
  | USA : Region
  | EUR : Region
  | JPN : Region
  | FRA : Region
deriving DecidableEq

/-- `Region::from_byte` from src/lib.rs: byte 69 (E) is USA, 74 (J) is JPN,
80 (P) is EUR, 70 (F) is FRA, anything else is an invalid-region error
carrying the byte. -/
def Region.from_byte (byte : Nat) : Except ImageError Region :=
  if byte = 69 then .ok .USA
  else if byte = 74 then .ok .JPN
  else if byte = 80 then .ok .EUR
  else if byte = 70 then .ok .FRA
  else .error (.InvalidRegion byte)

/-- `struct DVDHeader` from src/lib.rs. Fixed-width byte fields are lists of
bytes; the `String` field `game_name` is the list of its UTF-8 bytes. -/
structure DVDHeader where
  game_code : List Nat
  maker_code : List Nat
  disk_id : Nat
  version : Nat
  audio_streaming : Bool
  stream_buf_sz : Nat
  magic_word : Nat
  game_name : List Nat
  dol_ofst : Nat
  fst_ofst : Nat
  fst_sz : Nat
  max_fst_sz : Nat
deriving DecidableEq

/-- A banner text field. The source decodes the field bytes with
encoding_rs (UTF_8 for USA/EUR/FRA, SHIFT_JIS for JPN), a crate outside
this repository; the model records the decode request, the raw field bytes
together with the region whose charset decodes them, without performing the
external table-driven decoding. -/
structure DecodedText where
  region : Region
  bytes : List Nat
deriving DecidableEq

/-- `byte_slice_to_string` from src/lib.rs (see `DecodedText`). -/
def byte_slice_to_string (bytes : List Nat) (region : Region) : DecodedText :=
  ⟨region, bytes⟩

/-- `struct Banner` from src/lib.rs. -/
structure Banner where
  magic_word : List Nat
  graphical_data : List Nat
  game_name : DecodedText
  developer : DecodedText
  full_game_title : DecodedText
  full_developer_name : DecodedText
  description : DecodedText
deriving DecidableEq

/-- `struct FileData` from src/lib.rs. -/
structure FileData where
  file_offset : Nat
  file_length : Nat
deriving DecidableEq

/-- `struct DirData` from src/lib.rs. -/
structure DirData where
  parent_offset : Nat
  next_offset : Nat
deriving DecidableEq

/-- `struct RootDirectory` from src/lib.rs. -/
structure RootDirectory where
  num_entries : Nat
  string_table_ofst : Nat
deriving DecidableEq

/-- `enum EntryType` from src/lib.rs. -/
inductive EntryType where
  | File : FileData → EntryType
  | Directory : DirData → EntryType
deriving DecidableEq

/-- Whether an entry variant is the `File` variant. -/
def entryIsFile : EntryType → Bool
  | .File _ => true
  | .Directory _ => false

/-- `struct FilesystemEntry` from src/lib.rs; the filename is the list of
its UTF-8 bytes. -/
structure FilesystemEntry where
  filename : List Nat
  entry : EntryType
deriving DecidableEq

/-- `struct GCImage` from src/lib.rs, without the retained file handle
(the handle is passed explicitly to the operations in this model). -/
structure GCImage where
  header : DVDHeader
  banner : Banner
  region : Region
deriving DecidableEq

/-- The bytes of the source at offsets `o, o+1, ..., o+n-1`. -/
def bytesAt (src : Source) (o n : Nat) : List Nat :=
  (List.range' o n).map src.byte

/-- Seek-and-read-exact: models `file.seek(Start(o))` followed by
`file.read_exact` of an `n`-byte buffer, which yields an I/O error unless
exactly `n` bytes are available at offset `o`. -/
def readExact (src : Source) (o n : Nat) : Except Fail (List Nat) :=
  if o + n ≤ src.len then .ok (bytesAt src o n) else .error (.err .IOError)

/-- `u8_arr_to_u32` from src/lib.rs: big-endian 32-bit value of a 4-byte
slice (the callers always pass exactly 4 bytes, so the length assert in the
source always holds). -/
def u8_arr_to_u32 (arr : List Nat) : Nat :=
  (arr.getD 0 0) <<< 24 ||| (arr.getD 1 0) <<< 16 ||| (arr.getD 2 0) <<< 8 ||| arr.getD 3 0

/-- `u8_arr_to_u24` from src/lib.rs: big-endian 24-bit value of a 3-byte
slice. -/
def u8_arr_to_u24 (arr : List Nat) : Nat :=
  (arr.getD 0 0) <<< 16 ||| (arr.getD 1 0) <<< 8 ||| arr.getD 2 0

/-- Big-endian 32-bit value read directly from a source at offset `o`. -/
def be32At (src : Source) (o : Nat) : Nat :=
  (src.byte o) <<< 24 ||| (src.byte (o+1)) <<< 16 ||| (src.byte (o+2)) <<< 8 ||| src.byte (o+3)

/-- Big-endian 24-bit value read directly from a source at offset `o`. -/
def be24At (src : Source) (o : Nat) : Nat :=
  (src.byte o) <<< 16 ||| (src.byte (o+1)) <<< 8 ||| src.byte (o+2)

/-- Whether `lo ≤ c ≤ hi`, as a Bool. -/
def inRange (lo hi c : Nat) : Bool := decide (lo ≤ c) && decide (c ≤ hi)

/-- Whether a continuation byte of a multi-byte UTF-8 sequence is in range. -/
def isCont (c : Nat) : Bool := inRange 0x80 0xBF c

/-- UTF-8 validity of a byte list, following the standard table that
`String::from_utf8` checks (RFC 3629: no overlong forms, no surrogates,
maximum U+10FFFF). -/
def isValidUtf8 : List Nat → Bool
  | [] => true
  | b :: r =>
    if b ≤ 0x7F then isValidUtf8 r
    else if inRange 0xC2 0xDF b then
      match r with
      | c1 :: r1 => isCont c1 && isValidUtf8 r1
      | [] => false
    else if inRange 0xE0 0xEF b then
      match r with
      | c1 :: c2 :: r2 =>
          (if b = 0xE0 then inRange 0xA0 0xBF c1
           else if b = 0xED then inRange 0x80 0x9F c1
           else isCont c1) && isCont c2 && isValidUtf8 r2
      | _ => false
    else if inRange 0xF0 0xF4 b then
      match r with
      | c1 :: c2 :: c3 :: r3 =>
          (if b = 0xF0 then inRange 0x90 0xBF c1
           else if b = 0xF4 then inRange 0x80 0x8F c1
           else isCont c1) && isCont c2 && isCont c3 && isValidUtf8 r3
      | _ => false
    else false

/-- The 0x3E0-byte game-name field of a raw header block
(`data[0x0020..=0x03ff]`). -/
def gameNameSlice (data : List Nat) : List Nat := (data.drop 0x20).take GAME_NAME_SIZE

/-- `parse_header` from src/lib.rs. The Rust function returns `DVDHeader`
directly and panics on a wrong-sized slice (`assert`) or on game-name bytes
that are not valid UTF-8 (`String::from_utf8(..).unwrap()`); the model
returns `none` exactly on those panic paths. -/
def parse_header (data : List Nat) : Option DVDHeader :=
  if data.length = DVD_HEADER_SIZE then
    let gn := gameNameSlice data
    if isValidUtf8 gn then
      some {
        game_code := data.take 4
        maker_code := (data.drop 4).take 2
        disk_id := data.getD 6 0
        version := data.getD 7 0
        audio_streaming := data.getD 8 0 != 0
        stream_buf_sz := data.getD 9 0
        magic_word := u8_arr_to_u32 ((data.drop 0x1C).take 4)
        game_name := gn
        dol_ofst := u8_arr_to_u32 ((data.drop 0x0420).take 4)
        fst_ofst := u8_arr_to_u32 ((data.drop 0x0424).take 4)
        fst_sz := u8_arr_to_u32 ((data.drop 0x0428).take 4)
        max_fst_sz := u8_arr_to_u32 ((data.drop 0x042C).take 4) }
    else none
  else none

/-- The byte scan inside `read_string`: bytes from `ofst` up to the first
zero byte or the end of the source, whichever comes first. -/
def scanNull (src : Source) : Nat → Nat → List Nat
  | _, 0 => []
  | i, fuel + 1 =>
    let b := src.byte i
    if b = 0 then [] else b :: scanNull src (i + 1) fuel

/-- The bytes `read_string` collects when started at offset `ofst`. -/
def readStringBytes (src : Source) (ofst : Nat) : List Nat :=
  scanNull src ofst (src.len - ofst)

/-- `read_string` from src/lib.rs: reads bytes until a zero byte or end of
file, then `String::from_utf8(bytes).unwrap()`. The Rust function returns
`String` directly and panics when the collected bytes are not valid UTF-8;
the model returns `none` exactly on that panic path. -/
def read_string (src : Source) (ofst : Nat) : Option (List Nat) :=
  let bytes := readStringBytes src ofst
  if isValidUtf8 bytes then some bytes else none

/-- `validate_header` from src/lib.rs: the four checks in source order,
short-circuiting at the first failure. -/
def validate_header (hdr : DVDHeader) : Except ImageError Unit :=
  if hdr.magic_word ≠ DVD_MAGIC_NUMBER then
    .error (.InvalidHeader "incorrect or missing magic number")
  else if hdr.fst_ofst ≥ DVD_IMAGE_SIZE then
    .error (.InvalidHeader "malformed filesystem table offset")
  else if hdr.dol_ofst ≥ DVD_IMAGE_SIZE then
    .error (.InvalidHeader "malformed bootfile offset")
  else if hdr.game_code.getD 0 0 ≠ CONSOLE_ID then
    .error (.InvalidHeader "incorrect console id")
  else .ok ()

/-- `validate_banner` from src/lib.rs: magic bytes 66 78 82 (BNR) then
49 or 50 (1 or 2). -/
def validate_banner (bnr : Banner) : Except ImageError Unit :=
  if bnr.magic_word.getD 0 0 ≠ 66 ∨ bnr.magic_word.getD 1 0 ≠ 78 ∨
     bnr.magic_word.getD 2 0 ≠ 82 ∨
     (bnr.magic_word.getD 3 0 ≠ 49 ∧ bnr.magic_word.getD 3 0 ≠ 50) then
    .error (.InvalidBanner "invalid banner magic word")
  else .ok ()

/-- `read_root_entry` from src/lib.rs. -/
def read_root_entry (src : Source) (fst_ofst : Nat) : Except Fail RootDirectory := do
  let data ← readExact src fst_ofst FILE_ENTRY_SIZE
  let flags := data.getD 0 0
  if flags ≠ 1 then
    .error (.err (.InvalidHeader "invalid root directory entry"))
  else
    let num_entries := u8_arr_to_u32 ((data.drop 0x08).take 4)
    .ok ⟨num_entries, w32 (num_entries * FILE_ENTRY_SIZE)⟩

/-- `read_entry` from src/lib.rs. The filename offset addition is `u32`
arithmetic (`w32`); the panic inside `read_string` propagates. -/
def read_entry (src : Source) (ofst string_table_ofst : Nat) : Except Fail FilesystemEntry := do
  let data ← readExact src ofst FILE_ENTRY_SIZE
  let flags := data.getD 0 0
  let filename_ofst := u8_arr_to_u24 ((data.drop 0x01).take 3)
  let nofst := w32 (filename_ofst + string_table_ofst)
  match read_string src nofst with
  | none => .error .panicked
  | some filename =>
    let entry := if flags = 0 then
        EntryType.File ⟨u8_arr_to_u32 ((data.drop 0x04).take 4),
                        u8_arr_to_u32 ((data.drop 0x08).take 4)⟩
      else
        EntryType.Directory ⟨u8_arr_to_u32 ((data.drop 0x04).take 4),
                             u8_arr_to_u32 ((data.drop 0x08).take 4)⟩
    .ok ⟨filename, entry⟩

/-- The loop body of `find_file`, indexed by the current entry index and
the number of entries still to scan. -/
def findFileLoop (src : Source) (fst_ofst st : Nat) (name : List Nat) :
    Nat → Nat → Except Fail FilesystemEntry
  | _, 0 => .error (.err (.FileNotFound name))
  | i, fuel + 1 => do
    let e ← read_entry src (w32 (i * FILE_ENTRY_SIZE + fst_ofst)) st
    match e.entry with
    | .File _ =>
      if e.filename = name then .ok e
      else findFileLoop src fst_ofst st name (i + 1) fuel
    | .Directory _ => findFileLoop src fst_ofst st name (i + 1) fuel

/-- `find_file` from src/lib.rs: linear scan of all `num_entries` records,
returning the first `File` entry whose name matches. -/
def find_file (src : Source) (fst_ofst : Nat) (root : RootDirectory) (name : List Nat) :
    Except Fail FilesystemEntry :=
  findFileLoop src fst_ofst (w32 (root.string_table_ofst + fst_ofst)) name 0 root.num_entries

/-- The banner built from the 6496 banner bytes, slicing the fixed layout
exactly as the body of `read_banner` in src/lib.rs does. -/
def bannerOfData (data : List Nat) (region : Region) : Banner :=
  { magic_word := data.take 4
    graphical_data := (data.drop 0x20).take 0x1800
    game_name := byte_slice_to_string ((data.drop 0x1820).take 0x20) region
    developer := byte_slice_to_string ((data.drop 0x1840).take 0x20) region
    full_game_title := byte_slice_to_string ((data.drop 0x1860).take 0x40) region
    full_developer_name := byte_slice_to_string ((data.drop 0x18A0).take 0x40) region
    description := byte_slice_to_string ((data.drop 0x18E0).take 0x80) region }

/-- `read_banner` from src/lib.rs. -/
def read_banner (src : Source) (fst_ofst : Nat) (root : RootDirectory) (region : Region) :
    Except Fail Banner := do
  let banner_entry ← find_file src fst_ofst root BANNER_NAME
  match banner_entry.entry with
  | .File file_data =>
    if file_data.file_length ≠ BANNER_SZ then
      .error (.err (.InvalidBanner "malformed banner file"))
    else do
      let data ← readExact src file_data.file_offset BANNER_SZ
      .ok (bannerOfData data region)
  | .Directory _ => .error (.err (.InvalidBanner "opening.bnr must be a file"))

/-- A Rust `unwrap` on the panic channel: `none` is a panic. -/
def unwrapPanic : Option α → Except Fail α
  | none => .error .panicked
  | some a => .ok a

/-- `GCImage::open` from src/lib.rs: size check, header parse and
validation, region resolution, root entry, banner read and validation. -/
def GCImage.open (src : Source) : Except Fail GCImage :=
  if src.len ≠ DVD_IMAGE_SIZE then .error (.err .InvalidFileType)
  else do
    let data ← readExact src 0 DVD_HEADER_SIZE
    let header ← unwrapPanic (parse_header data)
    let _ ← liftE (validate_header header)
    let region ← liftE (Region.from_byte (header.game_code.getD 3 0))
    let root_entry ← read_root_entry src header.fst_ofst
    let banner ← read_banner src header.fst_ofst root_entry region
    let _ ← liftE (validate_banner banner)
    .ok ⟨header, banner, region⟩

/-- The loop body of `GCImage::files`, indexed by the current entry index
and the number of entries still to read. -/
def filesLoop (src : Source) (fst_ofst st : Nat) :
    Nat → Nat → Except Fail (List FilesystemEntry)
  | _, 0 => .ok []
  | i, fuel + 1 => do
    let e ← read_entry src (w32 (i * FILE_ENTRY_SIZE + fst_ofst)) st
    let rest ← filesLoop src fst_ofst st (i + 1) fuel
    .ok (e :: rest)

/-- `GCImage::files` from src/lib.rs (the spec calls it `list_entries`):
re-reads the root entry, then reads every record in on-disk order. -/
def GCImage.files (src : Source) (fst_ofst : Nat) : Except Fail (List FilesystemEntry) := do
  let root ← read_root_entry src fst_ofst
  filesLoop src fst_ofst (w32 (fst_ofst + root.string_table_ofst)) 0 root.num_entries

/-! Helper instances and lemmas. -/

instance {ε α : Type} [DecidableEq ε] [DecidableEq α] : DecidableEq (Except ε α)
  | .ok a, .ok b => by
      cases decEq a b with
      | isTrue h => exact isTrue (by rw [h])
      | isFalse h => exact isFalse (by intro hh; cases hh; exact h rfl)
  | .ok _, .error _ => isFalse (by intro h; cases h)
  | .error _, .ok _ => isFalse (by intro h; cases h)
  | .error e, .error f => by
      cases decEq e f with
      | isTrue h => exact isTrue (by rw [h])
      | isFalse h => exact isFalse (by intro hh; cases hh; exact h rfl)

theorem except_bind_ok {ε α β : Type} (a : α) (f : α → Except ε β) :
    (Except.ok a >>= f) = f a := rfl

theorem except_bind_error {ε α β : Type} (e : ε) (f : α → Except ε β) :
    ((Except.error e : Except ε α) >>= f) = Except.error e := rfl

theorem liftE_ok {α : Type} (a : α) : liftE (.ok a) = (.ok a : Except Fail α) := rfl

theorem liftE_error {α : Type} (e : ImageError) :
    liftE (.error e : Except ImageError α) = .error (.err e) := rfl

theorem readExact_ok (src : Source) (o n : Nat) (h : o + n ≤ src.len) :
    readExact src o n = .ok (bytesAt src o n) := by
  unfold readExact
  rw [if_pos h]

theorem readExact_error (src : Source) (o n : Nat) (h : ¬ o + n ≤ src.len) :
    readExact src o n = .error (.err .IOError) := by
  unfold readExact
  rw [if_neg h]

theorem byte_lt (src : Source) (i : Nat) : src.byte i < 256 :=
  Nat.mod_lt _ (by norm_num)

theorem be24At_lt (src : Source) (o : Nat) : be24At src o < 16777216 := by
  have h1 : src.byte o <<< 16 < 16777216 := by
    rw [Nat.shiftLeft_eq]
    have := byte_lt src o
    omega
  have h2 : src.byte (o+1) <<< 8 < 16777216 := by
    rw [Nat.shiftLeft_eq]
    have := byte_lt src (o+1)
    omega
  have h3 : src.byte (o+2) < 16777216 := lt_trans (byte_lt src (o+2)) (by norm_num)
  have h4 : (16777216 : Nat) = 2 ^ 24 := by norm_num
  rw [h4] at h1 h2 h3 ⊢
  exact Nat.or_lt_two_pow (Nat.or_lt_two_pow h1 h2) h3

theorem w32_eq_of_lt {n : Nat} (h : n < 4294967296) : w32 n = n := by
  unfold w32
  omega

theorem read_root_entry_eq (src : Source) (fst_ofst : Nat) (h : fst_ofst + 12 ≤ src.len) :
    read_root_entry src fst_ofst =
      if src.byte fst_ofst ≠ 1 then
        .error (.err (.InvalidHeader "invalid root directory entry"))
      else
        .ok ⟨be32At src (fst_ofst + 8), w32 (be32At src (fst_ofst + 8) * 12)⟩ := by
  unfold read_root_entry
  rw [readExact_ok src fst_ofst FILE_ENTRY_SIZE h]
  rfl

theorem read_entry_eq (src : Source) (ofst st : Nat) (h : ofst + 12 ≤ src.len) :
    read_entry src ofst st =
      match read_string src (w32 (be24At src (ofst + 1) + st)) with
      | none => .error .panicked
      | some filename =>
        .ok ⟨filename,
          if src.byte ofst = 0 then
            .File ⟨be32At src (ofst + 4), be32At src (ofst + 8)⟩
          else
            .Directory ⟨be32At src (ofst + 4), be32At src (ofst + 8)⟩⟩ := by
  unfold read_entry
  rw [readExact_ok src ofst FILE_ENTRY_SIZE h]
  rfl

/-! Claim C1. The claim asserts that `parse_header` and `read_string` return
a value or a typed error on every input, with no unchecked panic path. The
code panics (`unwrap`) on game-name or filename bytes that are not valid
UTF-8, so the claim is refuted by a concrete 0x440-byte header block whose
game-name field starts with byte 255. -/

/-- A 0x440-byte header block, all zero except byte 255 at offset 0x20 (the
first game-name byte), which is not valid UTF-8 anywhere. -/
def c1BadHeader : List Nat := (List.replicate 1088 0).set 32 255

set_option maxRecDepth 8000 in
/-- C1 counterexample: a correctly sized header block made of bytes on which
`parse_header` panics (modelled as `none`) instead of returning a value or a
typed error. -/
theorem claim_C1_counterexample :
    c1BadHeader.length = DVD_HEADER_SIZE ∧ (∀ b ∈ c1BadHeader, b < 256) ∧
      parse_header c1BadHeader = none := by
  refine ⟨by decide, ?_, by decide⟩
  intro b hb
  rcases List.mem_or_eq_of_mem_set hb with h | h
  · rw [List.eq_of_mem_replicate h]
    norm_num
  · omega

/-- C1 (amended): `parse_header` on a 0x440-byte block returns a header
exactly when the game-name bytes are valid UTF-8 and panics otherwise, and
`read_string` returns a string exactly when the scanned null-terminated
bytes are valid UTF-8 and panics otherwise; the remaining validators return
typed errors by construction. -/
theorem claim_C1 :
    (∀ data : List Nat, data.length = DVD_HEADER_SIZE →
      ((parse_header data).isSome = true ↔ isValidUtf8 (gameNameSlice data) = true)) ∧
    (∀ (src : Source) (ofst : Nat),
      ((read_string src ofst).isSome = true ↔
        isValidUtf8 (readStringBytes src ofst) = true)) := by
  constructor
  · intro data hlen
    unfold parse_header
    rw [if_pos hlen]
    by_cases h : isValidUtf8 (gameNameSlice data) = true
    · simp [h]
    · simp [h]
  · intro src ofst
    unfold read_string
    by_cases h : isValidUtf8 (readStringBytes src ofst) = true
    · simp [h]
    · simp [h]

set_option maxRecDepth 8000 in
/-- C1 witness: the amended claim instantiated at the all-zero header block,
whose game-name field is valid UTF-8, so parsing returns a value. -/
theorem claim_C1_witness :
    isValidUtf8 (gameNameSlice (List.replicate 1088 0)) = true ∧
      ((parse_header (List.replicate 1088 0)).isSome = true ↔
        isValidUtf8 (gameNameSlice (List.replicate 1088 0)) = true) :=
  ⟨by decide, claim_C1.1 (List.replicate 1088 0) (by decide)⟩

/-- C2: resolving byte 69 (E) yields USA, 80 (P) yields EUR, 74 (J) yields
JPN, 70 (F) yields FRA, and every other byte value yields an invalid-region
error carrying that exact byte. -/
theorem claim_C2 :
    Region.from_byte 69 = .ok .USA ∧
    Region.from_byte 80 = .ok .EUR ∧
    Region.from_byte 74 = .ok .JPN ∧
    Region.from_byte 70 = .ok .FRA ∧
    ∀ b : Nat, b ≠ 69 → b ≠ 80 → b ≠ 74 → b ≠ 70 →
      Region.from_byte b = .error (.InvalidRegion b) := by
  refine ⟨rfl, rfl, rfl, rfl, ?_⟩
  intro b h69 h80 h74 h70
  unfold Region.from_byte
  rw [if_neg h69, if_neg h74, if_neg h80, if_neg h70]

/-- C2 witness: the catch-all case instantiated at byte 0. -/
theorem claim_C2_witness :
    Region.from_byte 0 = .error (.InvalidRegion 0) :=
  claim_C2.2.2.2.2 0 (by decide) (by decide) (by decide) (by decide)

/-- C3: header validation succeeds iff the magic word matches, both the FST
and DOL offsets are strictly below the image size, and game-code byte 0 is
the console id; the four checks run in this fixed order, short-circuit at
the first failure, and each failure carries its own named invalid-header
condition (the four message strings are pairwise distinct). -/
theorem claim_C3 : ∀ hdr : DVDHeader,
    (validate_header hdr = .ok () ↔
      (hdr.magic_word = DVD_MAGIC_NUMBER ∧ hdr.fst_ofst < DVD_IMAGE_SIZE ∧
        hdr.dol_ofst < DVD_IMAGE_SIZE ∧ hdr.game_code.getD 0 0 = CONSOLE_ID)) ∧
    (hdr.magic_word ≠ DVD_MAGIC_NUMBER →
      validate_header hdr = .error (.InvalidHeader "incorrect or missing magic number")) ∧
    (hdr.magic_word = DVD_MAGIC_NUMBER → DVD_IMAGE_SIZE ≤ hdr.fst_ofst →
      validate_header hdr = .error (.InvalidHeader "malformed filesystem table offset")) ∧
    (hdr.magic_word = DVD_MAGIC_NUMBER → hdr.fst_ofst < DVD_IMAGE_SIZE →
      DVD_IMAGE_SIZE ≤ hdr.dol_ofst →
      validate_header hdr = .error (.InvalidHeader "malformed bootfile offset")) ∧
    (hdr.magic_word = DVD_MAGIC_NUMBER → hdr.fst_ofst < DVD_IMAGE_SIZE →
      hdr.dol_ofst < DVD_IMAGE_SIZE → hdr.game_code.getD 0 0 ≠ CONSOLE_ID →
      validate_header hdr = .error (.InvalidHeader "incorrect console id")) ∧
    (["incorrect or missing magic number", "malformed filesystem table offset",
      "malformed bootfile offset", "incorrect console id"] : List String).Nodup := by
  intro hdr
  refine ⟨?_, ?_, ?_, ?_, ?_, by decide⟩
  · constructor
    · intro h
      unfold validate_header at h
      split_ifs at h with h1 h2 h3 h4
      · exact ⟨by omega, by omega, by omega, by omega⟩
    · rintro ⟨h1, h2, h3, h4⟩
      unfold validate_header
      rw [if_neg (by omega), if_neg (by omega), if_neg (by omega), if_neg (by omega)]
  · intro h1
    unfold validate_header
    rw [if_pos h1]
  · intro h1 h2
    unfold validate_header
    rw [if_neg (by omega), if_pos (by omega)]
  · intro h1 h2 h3
    unfold validate_header
    rw [if_neg (by omega), if_neg (by omega), if_pos (by omega)]
  · intro h1 h2 h3 h4
    unfold validate_header
    rw [if_neg (by omega), if_neg (by omega), if_neg (by omega), if_pos h4]

/-- Header value passing all four checks (for the C3 witness). -/
def c3GoodHeader : DVDHeader :=
  ⟨[71, 65, 76, 69], [48, 49], 0, 0, false, 0, DVD_MAGIC_NUMBER, [], 1280, 1024, 64, 64⟩

/-- C3 witness: each of the five behavioural conjuncts instantiated at a
concrete header exercising exactly that case. -/
theorem claim_C3_witness :
    validate_header c3GoodHeader = .ok () ∧
    validate_header { c3GoodHeader with magic_word := 0 } =
      .error (.InvalidHeader "incorrect or missing magic number") ∧
    validate_header { c3GoodHeader with fst_ofst := DVD_IMAGE_SIZE } =
      .error (.InvalidHeader "malformed filesystem table offset") ∧
    validate_header { c3GoodHeader with dol_ofst := DVD_IMAGE_SIZE } =
      .error (.InvalidHeader "malformed bootfile offset") ∧
    validate_header { c3GoodHeader with game_code := [0, 65, 76, 69] } =
      .error (.InvalidHeader "incorrect console id") :=
  ⟨(claim_C3 c3GoodHeader).1.mpr ⟨by decide, by decide, by decide, by decide⟩,
   (claim_C3 _).2.1 (by decide),
   (claim_C3 _).2.2.1 (by decide) (by decide),
   (claim_C3 _).2.2.2.1 (by decide) (by decide) (by decide),
   (claim_C3 _).2.2.2.2.1 (by decide) (by decide) (by decide) (by decide)⟩

/-- C4: for every source whose total length is not exactly 1459978240,
`open` fails with the invalid-file-type error, regardless of content. -/
theorem claim_C4 : ∀ src : Source, src.len ≠ DVD_IMAGE_SIZE →
    GCImage.open src = .error (.err .InvalidFileType) := by
  intro src h
  unfold GCImage.open
  rw [if_pos h]

/-- C4 witness: the empty source. -/
theorem claim_C4_witness :
    GCImage.open (srcOfList []) = .error (.err .InvalidFileType) :=
  claim_C4 (srcOfList []) (by decide)

/-- Characterization of the scan loop of find_file: when every record read
succeeds and yields the corresponding entry of the list `es`, the loop
returns the first entry of `es` that is a File with the requested name, or
a file-not-found error carrying the name. -/
theorem findFileLoop_eq (src : Source) (fst_ofst st : Nat) (name : List Nat) :
    ∀ (es : List FilesystemEntry) (i : Nat),
      (∀ j (hj : j < es.length),
        read_entry src (w32 ((i + j) * FILE_ENTRY_SIZE + fst_ofst)) st =
          .ok (es.get ⟨j, hj⟩)) →
      findFileLoop src fst_ofst st name i es.length =
        match es.find? (fun e => entryIsFile e.entry && e.filename == name) with
        | some e => .ok e
        | none => .error (.err (.FileNotFound name)) := by
  intro es
  induction es with
  | nil => intro i _; rfl
  | cons e tl ih =>
    intro i h
    have h0 : read_entry src (w32 (i * FILE_ENTRY_SIZE + fst_ofst)) st = .ok e := by
      simpa using h 0 (by simp)
    have hshift : ∀ j (hj : j < tl.length),
        read_entry src (w32 ((i + 1 + j) * FILE_ENTRY_SIZE + fst_ofst)) st =
          .ok (tl.get ⟨j, hj⟩) := by
      intro j hj
      have hj' : j + 1 < (e :: tl).length := by
        simp only [List.length_cons]
        omega
      have hh := h (j + 1) hj'
      have harith : i + (j + 1) = i + 1 + j := by omega
      rw [harith] at hh
      simpa using hh
    show findFileLoop src fst_ofst st name i (tl.length + 1) = _
    unfold findFileLoop
    rw [h0, except_bind_ok]
    cases he : e.entry with
    | File fd =>
      by_cases hname : e.filename = name
      · have hp : (fun x : FilesystemEntry => entryIsFile x.entry && x.filename == name) e
            = true := by
          simp [he, entryIsFile, hname]
        rw [if_pos hname]
        simp only [List.find?_cons, hp]
      · have hp : (fun x : FilesystemEntry => entryIsFile x.entry && x.filename == name) e
            = false := by
          simp [he, entryIsFile, hname]
        rw [if_neg hname]
        simp only [List.find?_cons, hp]
        exact ih (i + 1) hshift
    | Directory dd =>
      have hp : (fun x : FilesystemEntry => entryIsFile x.entry && x.filename == name) e
          = false := by
        simp [he, entryIsFile]
      simp only [List.find?_cons, hp]
      exact ih (i + 1) hshift

/-- C6: for every entry table and name, find_file scans the entries in
on-disk order and returns the first entry that is a File whose filename
equals the requested name byte-exactly; a Directory entry with a matching
name is never returned; if no File entry matches, it fails with a
not-found error carrying the requested name. -/
theorem claim_C6 : ∀ (src : Source) (fst_ofst : Nat) (root : RootDirectory)
    (name : List Nat) (es : List FilesystemEntry),
    es.length = root.num_entries →
    (∀ j (hj : j < es.length),
      read_entry src (w32 (j * FILE_ENTRY_SIZE + fst_ofst))
        (w32 (root.string_table_ofst + fst_ofst)) = .ok (es.get ⟨j, hj⟩)) →
    find_file src fst_ofst root name =
      match es.find? (fun e => entryIsFile e.entry && e.filename == name) with
      | some e => .ok e
      | none => .error (.err (.FileNotFound name)) := by
  intro src fst_ofst root name es hlen hread
  unfold find_file
  rw [← hlen]
  exact findFileLoop_eq src fst_ofst (w32 (root.string_table_ofst + fst_ofst)) name es 0
    (fun j hj => by simpa using hread j hj)

/-- Source bytes for the C6 witness: a 3-record FST in which two Directory
records named x precede a File record named x. -/
def c6List : List Nat :=
  [1, 0, 0, 0, 0, 0, 0, 0, 0, 0, 0, 3] ++
  [1, 0, 0, 0, 0, 0, 0, 0, 0, 0, 0, 3] ++
  [0, 0, 0, 0, 0, 0, 0, 7, 0, 0, 0, 9] ++
  [120, 0]

/-- The C6 witness source. -/
def c6Src : Source := srcOfList c6List

/-- The entries read from `c6Src`. -/
def c6Entries : List FilesystemEntry :=
  [⟨[120], .Directory ⟨0, 3⟩⟩, ⟨[120], .Directory ⟨0, 3⟩⟩, ⟨[120], .File ⟨7, 9⟩⟩]

/-- C6 witness: on `c6Src`, where two directories named x precede the file
named x, find_file returns the File entry and not a Directory. -/
theorem claim_C6_witness :
    find_file c6Src 0 ⟨3, 36⟩ [120] = .ok ⟨[120], .File ⟨7, 9⟩⟩ :=
  (claim_C6 c6Src 0 ⟨3, 36⟩ [120] c6Entries (by decide) (by decide)).trans (by decide)

/-- Characterization of the read loop of GCImage.files: when every record
read succeeds and yields `g` of its index, the loop returns the image of
the index range under `g`. -/
theorem filesLoop_eq (src : Source) (fst_ofst st : Nat) (g : Nat → FilesystemEntry) :
    ∀ (fuel i : Nat),
      (∀ j, j < fuel →
        read_entry src (w32 ((i + j) * FILE_ENTRY_SIZE + fst_ofst)) st = .ok (g (i + j))) →
      filesLoop src fst_ofst st i fuel = .ok ((List.range' i fuel).map g) := by
  intro fuel
  induction fuel with
  | zero => intro i _; rfl
  | succ n ih =>
    intro i h
    have h0 : read_entry src (w32 (i * FILE_ENTRY_SIZE + fst_ofst)) st = .ok (g i) := by
      simpa using h 0 (by omega)
    have hshift : ∀ j, j < n →
        read_entry src (w32 ((i + 1 + j) * FILE_ENTRY_SIZE + fst_ofst)) st =
          .ok (g (i + 1 + j)) := by
      intro j hj
      have hh := h (j + 1) (by omega)
      have harith : i + (j + 1) = i + 1 + j := by omega
      rw [harith] at hh
      exact hh
    unfold filesLoop
    rw [h0, except_bind_ok, ih (i + 1) hshift, except_bind_ok, List.range'_succ,
      List.map_cons]

/-- Entry `i` of a well-formed FST, as claim C5 describes it: classified
File exactly when the record flag byte is 0 (Directory otherwise), with the
filename read as the null-terminated string at
`fst_ofst + num_entries * 12 + filename_ofst`, where `filename_ofst` is the
24-bit big-endian value of record bytes 1-3. Written from the claim wording
as the specification side of the C5 refinement. -/
def entrySpecC5 (src : Source) (fst_ofst k i : Nat) : FilesystemEntry :=
  { filename := readStringBytes src (fst_ofst + k * 12 + be24At src (fst_ofst + i * 12 + 1))
    entry :=
      if src.byte (fst_ofst + i * 12) = 0 then
        .File ⟨be32At src (fst_ofst + i * 12 + 4), be32At src (fst_ofst + i * 12 + 8)⟩
      else
        .Directory ⟨be32At src (fst_ofst + i * 12 + 4), be32At src (fst_ofst + i * 12 + 8)⟩ }

/-- C5: on a source whose root record (flag byte 1) announces `k` entries,
with all `k` records inside the source, no 32-bit overflow, and all
filenames valid UTF-8, `GCImage.files` returns exactly the `k` entries in
on-disk record order, each classified File iff its flag byte is 0 and named
by the null-terminated string at `fst_ofst + k * 12 + filename_ofst`
(index 0 being the root record itself); and when the root record flag byte
is not 1, it fails with the named invalid-header error. -/
theorem claim_C5 :
    (∀ (src : Source) (fst_ofst : Nat), fst_ofst + 12 ≤ src.len →
      src.byte fst_ofst ≠ 1 →
      GCImage.files src fst_ofst =
        .error (.err (.InvalidHeader "invalid root directory entry"))) ∧
    (∀ (src : Source) (fst_ofst k : Nat),
      src.byte fst_ofst = 1 →
      be32At src (fst_ofst + 8) = k →
      fst_ofst + 12 ≤ src.len →
      fst_ofst + k * 12 ≤ src.len →
      fst_ofst + k * 12 + 16777216 ≤ 4294967296 →
      (∀ i, i < k →
        isValidUtf8 (readStringBytes src
          (fst_ofst + k * 12 + be24At src (fst_ofst + i * 12 + 1))) = true) →
      GCImage.files src fst_ofst = .ok ((List.range k).map (entrySpecC5 src fst_ofst k))) := by
  constructor
  · intro src fst_ofst hread hflag
    unfold GCImage.files
    rw [read_root_entry_eq src fst_ofst hread, if_pos hflag, except_bind_error]
  · intro src fst_ofst k hflag hk hread hlen hw hutf
    unfold GCImage.files
    rw [read_root_entry_eq src fst_ofst hread, if_neg (by omega), except_bind_ok, hk]
    have hw1 : w32 (k * 12) = k * 12 := w32_eq_of_lt (by omega)
    have hw2 : w32 (fst_ofst + k * 12) = fst_ofst + k * 12 := w32_eq_of_lt (by omega)
    show filesLoop src fst_ofst (w32 (fst_ofst + w32 (k * FILE_ENTRY_SIZE))) 0 k = _
    have hfes : (FILE_ENTRY_SIZE : Nat) = 12 := rfl
    rw [hfes, hw1, hw2, List.range_eq_range']
    apply filesLoop_eq
    intro j hj
    have hz : 0 + j = j := by omega
    rw [hz]
    have hofs : w32 (j * FILE_ENTRY_SIZE + fst_ofst) = fst_ofst + j * 12 := by
      rw [hfes]
      exact (w32_eq_of_lt (by omega)).trans (by omega)
    rw [hofs, read_entry_eq src (fst_ofst + j * 12) (fst_ofst + k * 12) (by omega)]
    have hb24 := be24At_lt src (fst_ofst + j * 12 + 1)
    have hnofs : w32 (be24At src (fst_ofst + j * 12 + 1) + (fst_ofst + k * 12)) =
        fst_ofst + k * 12 + be24At src (fst_ofst + j * 12 + 1) := by
      unfold w32
      omega
    rw [hnofs]
    have hstr : read_string src (fst_ofst + k * 12 + be24At src (fst_ofst + j * 12 + 1)) =
        some (readStringBytes src
          (fst_ofst + k * 12 + be24At src (fst_ofst + j * 12 + 1))) := by
      unfold read_string
      rw [if_pos (hutf j hj)]
    rw [hstr]
    rfl

/-- Source bytes for the C5 witness: root record (flag 1, 2 entries), one
File record, and a string table with names a and b. -/
def c5List : List Nat :=
  [1, 0, 0, 0, 0, 0, 0, 0, 0, 0, 0, 2] ++
  [0, 0, 0, 2, 0, 0, 0, 0, 0, 0, 0, 5] ++
  [97, 0, 98, 0]

/-- The C5 witness source. -/
def c5Src : Source := srcOfList c5List

/-- C5 witness: the invalid-root case on a source whose root flag byte is 2,
and the success case on `c5Src`, which lists its two records in on-disk
order, the root record (a Directory named a) first and the File named b
second. -/
theorem claim_C5_witness :
    GCImage.files (srcOfList [2, 0, 0, 0, 0, 0, 0, 0, 0, 0, 0, 0]) 0 =
      .error (.err (.InvalidHeader "invalid root directory entry")) ∧
    GCImage.files c5Src 0 =
      .ok [⟨[97], .Directory ⟨0, 2⟩⟩, ⟨[98], .File ⟨0, 5⟩⟩] :=
  ⟨claim_C5.1 (srcOfList [2, 0, 0, 0, 0, 0, 0, 0, 0, 0, 0, 0]) 0 (by decide) (by decide),
   (claim_C5.2 c5Src 0 2 (by decide) (by decide) (by decide) (by decide) (by decide)
     (by decide)).trans (by decide)⟩

theorem readExact_error_shape (src : Source) (o n : Nat) (f : Fail)
    (h : readExact src o n = .error f) : f = .err .IOError := by
  unfold readExact at h
  split at h
  · exact Except.noConfusion h
  · injection h with hh
    exact hh.symm

theorem read_entry_error_shape (src : Source) (ofst st : Nat) (f : Fail)
    (h : read_entry src ofst st = .error f) :
    f = .panicked ∨ f = .err .IOError := by
  by_cases hio : ofst + FILE_ENTRY_SIZE ≤ src.len
  · rw [show (FILE_ENTRY_SIZE : Nat) = 12 from rfl] at hio
    rw [read_entry_eq src ofst st hio] at h
    cases hs : read_string src (w32 (be24At src (ofst + 1) + st)) with
    | none =>
      rw [hs] at h
      injection h with hh
      exact Or.inl hh.symm
    | some filename =>
      rw [hs] at h
      exact Except.noConfusion h
  · unfold read_entry at h
    rw [readExact_error src ofst FILE_ENTRY_SIZE hio, except_bind_error] at h
    injection h with hh
    exact Or.inr hh.symm

theorem findFileLoop_ok_file (src : Source) (fst_ofst st : Nat) (name : List Nat) :
    ∀ (fuel i : Nat) (e : FilesystemEntry),
      findFileLoop src fst_ofst st name i fuel = .ok e → entryIsFile e.entry = true := by
  intro fuel
  induction fuel with
  | zero =>
    intro i e h
    exact Except.noConfusion h
  | succ n ih =>
    intro i e h
    unfold findFileLoop at h
    cases hre : read_entry src (w32 (i * FILE_ENTRY_SIZE + fst_ofst)) st with
    | error f =>
      rw [hre, except_bind_error] at h
      exact Except.noConfusion h
    | ok e' =>
      rw [hre, except_bind_ok] at h
      cases he' : e'.entry with
      | File fd =>
        simp only [he'] at h
        by_cases hname : e'.filename = name
        · rw [if_pos hname] at h
          injection h with hh
          rw [← hh]
          simp [entryIsFile, he']
        · rw [if_neg hname] at h
          exact ih (i + 1) e h
      | Directory dd =>
        simp only [he'] at h
        exact ih (i + 1) e h

theorem findFileLoop_error_shape (src : Source) (fst_ofst st : Nat) (name : List Nat) :
    ∀ (fuel i : Nat) (f : Fail),
      findFileLoop src fst_ofst st name i fuel = .error f →
      f = .panicked ∨ f = .err .IOError ∨ f = .err (.FileNotFound name) := by
  intro fuel
  induction fuel with
  | zero =>
    intro i f h
    unfold findFileLoop at h
    injection h with hh
    exact Or.inr (Or.inr hh.symm)
  | succ n ih =>
    intro i f h
    unfold findFileLoop at h
    cases hre : read_entry src (w32 (i * FILE_ENTRY_SIZE + fst_ofst)) st with
    | error f' =>
      rw [hre, except_bind_error] at h
      injection h with hh
      rcases read_entry_error_shape src _ st f' hre with h1 | h1
      · exact Or.inl (by rw [← hh, h1])
      · exact Or.inr (Or.inl (by rw [← hh, h1]))
    | ok e' =>
      rw [hre, except_bind_ok] at h
      cases he' : e'.entry with
      | File fd =>
        simp only [he'] at h
        by_cases hname : e'.filename = name
        · rw [if_pos hname] at h
          exact Except.noConfusion h
        · rw [if_neg hname] at h
          exact ih (i + 1) f h
      | Directory dd =>
        simp only [he'] at h
        exact ih (i + 1) f h

theorem find_file_ok_shape {src : Source} {fst_ofst : Nat} {root : RootDirectory}
    {name : List Nat} {e : FilesystemEntry}
    (h : find_file src fst_ofst root name = .ok e) :
    ∃ fn fd, e = ⟨fn, .File fd⟩ := by
  have hf : entryIsFile e.entry = true := by
    unfold find_file at h
    exact findFileLoop_ok_file src fst_ofst _ name root.num_entries 0 e h
  cases e with
  | mk fn ent =>
    cases ent with
    | File fd => exact ⟨fn, fd, rfl⟩
    | Directory dd => simp [entryIsFile] at hf

theorem find_file_error_shape {src : Source} {fst_ofst : Nat} {root : RootDirectory}
    {name : List Nat} {f : Fail}
    (h : find_file src fst_ofst root name = .error f) :
    f = .panicked ∨ f = .err .IOError ∨ f = .err (.FileNotFound name) := by
  unfold find_file at h
  exact findFileLoop_error_shape src fst_ofst _ name root.num_entries 0 f h

theorem read_banner_file_case {src : Source} {fst_ofst : Nat} {root : RootDirectory}
    (region : Region) {fn : List Nat} {fd : FileData}
    (h : find_file src fst_ofst root BANNER_NAME = .ok ⟨fn, .File fd⟩) :
    read_banner src fst_ofst root region =
      if fd.file_length ≠ BANNER_SZ then
        .error (.err (.InvalidBanner "malformed banner file"))
      else
        readExact src fd.file_offset BANNER_SZ >>= fun data =>
          .ok (bannerOfData data region) := by
  unfold read_banner
  rw [h, except_bind_ok]

theorem read_banner_ok_inv {src : Source} {fst_ofst : Nat} {root : RootDirectory}
    {region : Region} {bn : Banner}
    (h : read_banner src fst_ofst root region = .ok bn) :
    ∃ fn fd, find_file src fst_ofst root BANNER_NAME = .ok ⟨fn, .File fd⟩ ∧
      fd.file_length = BANNER_SZ := by
  cases hff : find_file src fst_ofst root BANNER_NAME with
  | error f =>
    unfold read_banner at h
    rw [hff, except_bind_error] at h
    exact Except.noConfusion h
  | ok e =>
    obtain ⟨fn, fd, rfl⟩ := find_file_ok_shape hff
    rw [read_banner_file_case region hff] at h
    by_cases hl : fd.file_length ≠ BANNER_SZ
    · rw [if_pos hl] at h
      exact Except.noConfusion h
    · exact ⟨fn, fd, rfl, not_ne_iff.mp hl⟩

theorem unwrapPanic_none {α : Type} :
    unwrapPanic (none : Option α) = .error .panicked := rfl

theorem unwrapPanic_some {α : Type} (a : α) : unwrapPanic (some a) = .ok a := rfl

set_option maxRecDepth 8000 in
theorem open_ok_inv {src : Source} {img : GCImage} (h : GCImage.open src = .ok img) :
    src.len = DVD_IMAGE_SIZE ∧
    parse_header (bytesAt src 0 DVD_HEADER_SIZE) = some img.header ∧
    validate_header img.header = .ok () ∧
    Region.from_byte (img.header.game_code.getD 3 0) = .ok img.region ∧
    (∃ root, read_root_entry src img.header.fst_ofst = .ok root ∧
      read_banner src img.header.fst_ofst root img.region = .ok img.banner) ∧
    validate_banner img.banner = .ok () := by
  unfold GCImage.open at h
  by_cases hlen : src.len ≠ DVD_IMAGE_SIZE
  · rw [if_pos hlen] at h
    exact Except.noConfusion h
  · rw [if_neg hlen] at h
    have hlen2 : src.len = DVD_IMAGE_SIZE := not_ne_iff.mp hlen
    rw [readExact_ok src 0 DVD_HEADER_SIZE (by rw [hlen2]; decide), except_bind_ok] at h
    cases hp : parse_header (bytesAt src 0 DVD_HEADER_SIZE) with
    | none =>
      rw [hp, unwrapPanic_none, except_bind_error] at h
      exact Except.noConfusion h
    | some hd =>
      rw [hp, unwrapPanic_some, except_bind_ok] at h
      cases hv : validate_header hd with
      | error e =>
        rw [hv, liftE_error, except_bind_error] at h
        exact Except.noConfusion h
      | ok u =>
        cases u
        rw [hv, liftE_ok, except_bind_ok] at h
        cases hr : Region.from_byte (hd.game_code.getD 3 0) with
        | error e =>
          rw [hr, liftE_error, except_bind_error] at h
          exact Except.noConfusion h
        | ok rg =>
          rw [hr, liftE_ok, except_bind_ok] at h
          cases hro : read_root_entry src hd.fst_ofst with
          | error e =>
            rw [hro, except_bind_error] at h
            exact Except.noConfusion h
          | ok root =>
            rw [hro, except_bind_ok] at h
            cases hb : read_banner src hd.fst_ofst root rg with
            | error e =>
              rw [hb, except_bind_error] at h
              exact Except.noConfusion h
            | ok bn =>
              rw [hb, except_bind_ok] at h
              cases hvb : validate_banner bn with
              | error e =>
                rw [hvb, liftE_error, except_bind_error] at h
                exact Except.noConfusion h
              | ok u =>
                cases u
                rw [hvb, liftE_ok, except_bind_ok] at h
                injection h with hh
                subst hh
                exact ⟨hlen2, rfl, hv, hr, ⟨root, hro, hb⟩, hvb⟩

/-- C9: no partially valid image is observable. Whenever `open` returns an
image, every step succeeded: the source has the exact image size, the
header parses from the first 0x440 bytes and passes header validation, the
region is the resolution of game-code byte 3, the root entry was read, the
banner was read through the FST and passes banner validation; on any
failure no image is returned (the error branch of the match). -/
theorem claim_C9 : ∀ src : Source,
    match GCImage.open src with
    | .ok img =>
        src.len = DVD_IMAGE_SIZE ∧
        parse_header (bytesAt src 0 DVD_HEADER_SIZE) = some img.header ∧
        validate_header img.header = .ok () ∧
        Region.from_byte (img.header.game_code.getD 3 0) = .ok img.region ∧
        (∃ root, read_root_entry src img.header.fst_ofst = .ok root ∧
          read_banner src img.header.fst_ofst root img.region = .ok img.banner) ∧
        validate_banner img.banner = .ok ()
    | .error _ => True := by
  intro src
  cases h : GCImage.open src with
  | ok img => exact open_ok_inv h
  | error f => trivial

/-- C7: locating opening.bnr with a file length other than 6496 makes
banner extraction fail with the invalid-banner condition; banner validation
succeeds exactly when the magic bytes are B N R followed by 1 or 2; and on
any successfully opened image both conditions held, so either failure makes
`open` fail. -/
theorem claim_C7 :
    (∀ (src : Source) (fst_ofst : Nat) (root : RootDirectory) (region : Region)
      (fn : List Nat) (fd : FileData),
      find_file src fst_ofst root BANNER_NAME = .ok ⟨fn, .File fd⟩ →
      fd.file_length ≠ BANNER_SZ →
      read_banner src fst_ofst root region =
        .error (.err (.InvalidBanner "malformed banner file"))) ∧
    (∀ bnr : Banner, validate_banner bnr = .ok () ↔
      (bnr.magic_word.getD 0 0 = 66 ∧ bnr.magic_word.getD 1 0 = 78 ∧
        bnr.magic_word.getD 2 0 = 82 ∧
        (bnr.magic_word.getD 3 0 = 49 ∨ bnr.magic_word.getD 3 0 = 50))) ∧
    (∀ src : Source,
      match GCImage.open src with
      | .ok img =>
          validate_banner img.banner = .ok () ∧
          ∃ root fn fd, read_root_entry src img.header.fst_ofst = .ok root ∧
            find_file src img.header.fst_ofst root BANNER_NAME = .ok ⟨fn, .File fd⟩ ∧
            fd.file_length = BANNER_SZ
      | .error _ => True) := by
  refine ⟨?_, ?_, ?_⟩
  · intro src fst_ofst root region fn fd hff hl
    rw [read_banner_file_case region hff, if_pos hl]
  · intro bnr
    unfold validate_banner
    split_ifs with hc
    · constructor
      · intro h
        exact h.elim
      · intro hh
        exact absurd hc (by tauto)
    · push_neg at hc
      constructor
      · intro _
        tauto
      · intro _
        rfl
  · intro src
    cases h : GCImage.open src with
    | error f => trivial
    | ok img =>
      obtain ⟨-, -, -, -, ⟨root, hro, hb⟩, hvb⟩ := open_ok_inv h
      obtain ⟨fn, fd, hff, hlen⟩ := read_banner_ok_inv hb
      exact ⟨hvb, root, fn, fd, hro, hff, hlen⟩

/-- C7 witness: the length conjunct instantiated on a source whose
opening.bnr record announces 5 bytes, so banner extraction fails. -/
def c7List : List Nat :=
  [1, 0, 0, 0, 0, 0, 0, 0, 0, 0, 0, 2] ++
  [0, 0, 0, 0, 0, 0, 0, 0, 0, 0, 0, 5] ++
  [111, 112, 101, 110, 105, 110, 103, 46, 98, 110, 114, 0]

/-- The C7 witness source. -/
def c7Src : Source := srcOfList c7List

/-- C7 witness: on `c7Src` the banner entry is found with length 5, and
banner extraction fails with the invalid-banner condition. -/
theorem claim_C7_witness :
    read_banner c7Src 0 ⟨2, 24⟩ .USA =
      .error (.err (.InvalidBanner "malformed banner file")) :=
  claim_C7.1 c7Src 0 ⟨2, 24⟩ .USA BANNER_NAME ⟨0, 5⟩ (by decide) (by decide)

/-- C10: the Directory error branch of banner extraction is unreachable.
Whenever find_file returns an entry it is a File entry, and read_banner
never fails with the opening.bnr-must-be-a-file condition. -/
theorem claim_C10 :
    (∀ (src : Source) (fst_ofst : Nat) (root : RootDirectory) (name : List Nat),
      match find_file src fst_ofst root name with
      | .ok e => entryIsFile e.entry = true
      | .error _ => True) ∧
    (∀ (src : Source) (fst_ofst : Nat) (root : RootDirectory) (region : Region),
      read_banner src fst_ofst root region ≠
        .error (.err (.InvalidBanner "opening.bnr must be a file"))) := by
  constructor
  · intro src fst_ofst root name
    cases h : find_file src fst_ofst root name with
    | ok e =>
      unfold find_file at h
      exact findFileLoop_ok_file src fst_ofst _ name root.num_entries 0 e h
    | error f => trivial
  · intro src fst_ofst root region h
    cases hff : find_file src fst_ofst root BANNER_NAME with
    | error f =>
      unfold read_banner at h
      rw [hff, except_bind_error] at h
      injection h with hf
      rcases find_file_error_shape hff with h1 | h1 | h1 <;> subst h1 <;> simp at hf
    | ok e =>
      obtain ⟨fn, fd, rfl⟩ := find_file_ok_shape hff
      rw [read_banner_file_case region hff] at h
      by_cases hl : fd.file_length ≠ BANNER_SZ
      · rw [if_pos hl] at h
        injection h with hf
        simp at hf
      · rw [if_neg hl] at h
        cases hrx : readExact src fd.file_offset BANNER_SZ with
        | error f =>
          rw [hrx, except_bind_error] at h
          injection h with hf
          rw [readExact_error_shape src fd.file_offset BANNER_SZ f hrx] at hf
          simp at hf
        | ok data =>
          rw [hrx, except_bind_ok] at h
          exact Except.noConfusion h

/-- C10 witness: the never-returns-the-directory-error conjunct
instantiated at the C7 source. -/
theorem claim_C10_witness :
    read_banner c7Src 0 ⟨2, 24⟩ .USA ≠
      .error (.err (.InvalidBanner "opening.bnr must be a file")) :=
  claim_C10.2 c7Src 0 ⟨2, 24⟩ .USA

/-- Bytes of a complete well-formed image: console id G and region byte E in
the game code, the magic word at 0x1C, fst_ofst 0x440, a 2-record FST whose
File record points at a 6496-byte banner at 0x500 starting with BNR1, and
zero everywhere else. -/
def goodData (i : Nat) : Nat :=
  if i = 0 then 71
  else if i = 3 then 69
  else if i = 0x1C then 194 else if i = 0x1D then 51
  else if i = 0x1E then 159 else if i = 0x1F then 61
  else if i = 0x426 then 4 else if i = 0x427 then 64
  else if i = 0x440 then 1
  else if i = 0x44B then 2
  else if i = 0x452 then 5
  else if i = 0x456 then 25 else if i = 0x457 then 96
  else if 0x458 ≤ i && i ≤ 0x462 then BANNER_NAME.getD (i - 0x458) 0
  else if i = 0x500 then 66 else if i = 0x501 then 78
  else if i = 0x502 then 82 else if i = 0x503 then 49
  else 0

/-- A full-size source on which `open` succeeds. -/
def goodSrc : Source := ⟨DVD_IMAGE_SIZE, goodData⟩

set_option maxRecDepth 16000 in
set_option maxHeartbeats 4000000 in
/-- The success path of `open` is reachable: the invariants stated over the
`.ok` branch in the theorems about `open` are not vacuous. -/
theorem open_goodSrc_ok : (GCImage.open goodSrc).isOk = true := by decide
